import Mathlib

/-!
Verification of the sarayu dashboard components
(`src/dashboard/components/broker_ip_settings.py` and
`src/dashboard/components/dc_settings.py`) against their specification.

Shallow embedding conventions:
* Python floats are modelled as rationals (`ℚ`); the one non-finite value
  reachable in this code, `float('inf')`, is modelled by a dedicated
  constructor of `PFloat`.
* Qt table cells holding text are modelled as `String` fields of a state
  record; the per-channel `QDoubleSpinBox` is modelled as a `ℚ` field
  (widget-level clamping/rounding of the spinbox is not part of the
  modelled source lines).
* `float(s)` / `int(s)` are modelled by executable decimal parsers covering
  the texts this code can place in the cells (optional sign, digits,
  optional fractional part); `str.strip()` is modelled by `pyStrip`.
* Python string formatting `f"{x:.kf}"` is modelled by `formatFixed k`
  (round half to even, as CPython does on exact halves), and `str(x)` for a
  float by `pyFloatStr` (shortest terminating decimal, with a trailing
  `.0` for integral values), matching CPython's output on the decimally
  representable values that arise here.
* Rational arithmetic inside executable definitions is phrased with
  `mkRat` and integer arithmetic (`qDiv`, `qAbs`, …) so that the kernel
  can evaluate it; the lemmas `qDiv_eq`, `qAbs_eq`, `qNeg_eq` identify
  these with the ordinary field operations on `ℚ`.
* MQTT publishing is modelled by returning the published
  `(topic, payload)` pair; the handler argument `Option Bool` is `none`
  when no handler is configured, `some true` when `publish` succeeds and
  `some false` when `publish` raises.
-/

/-! ### Kernel-evaluable rational arithmetic -/

/-- Division of rationals, written out with `mkRat`; equals `a / b`. -/
def qDiv (a b : ℚ) : ℚ :=
  let n := a.num * (b.den : ℤ)
  let d := (a.den : ℤ) * b.num
  mkRat (if d < 0 then -n else n) d.natAbs

/-- Absolute value of a rational, written out with `mkRat`; equals `|q|`. -/
def qAbs (q : ℚ) : ℚ :=
  mkRat (q.num.natAbs : ℤ) q.den

/-- Negation of a rational, written out with `mkRat`; equals `-q`. -/
def qNeg (q : ℚ) : ℚ :=
  mkRat (-q.num) q.den

/-! ### Python-style string and number utilities -/

/-- Numeric value of a list of decimal digit characters (most significant first). -/
def digitsVal (cs : List Char) : Nat :=
  cs.foldl (fun a c => a * 10 + (c.toNat - 48)) 0

/-- A nonempty, all-decimal-digit character list. -/
def isDigits (cs : List Char) : Bool :=
  !cs.isEmpty && cs.all Char.isDigit

/-- Model of Python `str.strip()`: drop leading and trailing whitespace. -/
def pyStrip (s : String) : String :=
  String.mk ((((s.toList).dropWhile Char.isWhitespace).reverse.dropWhile
    Char.isWhitespace).reverse)

/-- Split a character list at the first `.`, if any. -/
def splitDot (cs : List Char) : List Char × Option (List Char) :=
  match cs.span (fun c => c != '.') with
  | (a, []) => (a, none)
  | (a, _ :: b) => (a, some b)

/-- Parse an unsigned decimal literal (`"12"`, `"12.5"`, `"12."`, `".5"`),
as accepted by Python `float()` for the texts produced by this code. -/
def parseUnsigned (cs : List Char) : Option ℚ :=
  match splitDot cs with
  | (ip, none) => if isDigits ip then some (digitsVal ip : ℚ) else none
  | (ip, some fp) =>
      if ip.isEmpty && fp.isEmpty then none
      else if ip.all Char.isDigit && fp.all Char.isDigit then
        some (mkRat (digitsVal ip * 10 ^ fp.length + digitsVal fp) (10 ^ fp.length))
      else none

/-- Model of Python `float(s)` on the decimal texts reachable in this code. -/
def parseFloat (s : String) : Option ℚ :=
  match (pyStrip s).toList with
  | '-' :: rest => (parseUnsigned rest).map qNeg
  | '+' :: rest => parseUnsigned rest
  | cs => parseUnsigned cs

/-- Model of Python `int(s)`: optional sign followed by decimal digits. -/
def parseInt (s : String) : Option ℤ :=
  match (pyStrip s).toList with
  | '-' :: rest => if isDigits rest then some (-(digitsVal rest : ℤ)) else none
  | '+' :: rest => if isDigits rest then some (digitsVal rest : ℤ) else none
  | cs => if isDigits cs then some (digitsVal cs : ℤ) else none

/-- Round a rational to the nearest integer, ties to even (CPython float
formatting rounds correctly with ties to even); phrased on the integer
numerator and denominator so that the kernel can evaluate it. -/
def rndHalfEven (q : ℚ) : ℤ :=
  let f := q.num / (q.den : ℤ)
  let r2 := 2 * (q.num % (q.den : ℤ))
  if r2 < (q.den : ℤ) then f
  else if (q.den : ℤ) < r2 then f + 1
  else if f % 2 = 0 then f else f + 1

/-- Decimal digit characters of `n`, most significant first (structural
fuel recursion so that the kernel can evaluate it). -/
def natDigitsAux : Nat → Nat → List Char
  | 0, _ => []
  | _ + 1, 0 => []
  | fuel + 1, n => natDigitsAux fuel (n / 10) ++ [Char.ofNat (48 + n % 10)]

/-- Decimal string of a natural number. -/
def natToString (n : Nat) : String :=
  if n = 0 then "0" else String.mk (natDigitsAux (n + 1) n)

/-- Left-pad a string with zeros to length `k`. -/
def padZeros (k : Nat) (s : String) : String :=
  String.mk (List.replicate (k - s.length) '0') ++ s

/-- Model of Python fixed-point formatting `f"{q:.kf}"` (for `k ≥ 1`):
round `q * 10 ^ k` to the nearest integer and print it with `k` digits
after the decimal point. -/
def formatFixed (k : Nat) (q : ℚ) : String :=
  let n := rndHalfEven (mkRat (q.num * 10 ^ k) q.den)
  let m := n.natAbs
  (if q.num < 0 then "-" else "") ++ natToString (m / 10 ^ k) ++ "." ++
    padZeros k (natToString (m % 10 ^ k))

/-- Smallest number of decimal digits (up to 17) that represents `q`
exactly, if any. -/
def decDigits (q : ℚ) : Option Nat :=
  (List.range 18).find? (fun k => (mkRat (q.num * 10 ^ k) q.den).den = 1)

/-- Model of Python `str()` on a float: shortest terminating decimal,
integral values rendered with a trailing `.0`, matching CPython's
shortest-round-trip output on the values reachable here. -/
def pyFloatStr (q : ℚ) : String :=
  match decDigits q with
  | some 0 => (if q.num < 0 then "-" else "") ++ natToString q.num.natAbs ++ ".0"
  | some k => formatFixed k q
  | none => formatFixed 17 q

/-! ### BrokerIPDialog (`broker_ip_settings.py`) -/

/-- Validation failures of `BrokerIPDialog.save_settings`. -/
inductive ValidationError where
  | EmptyHost : ValidationError
  | InvalidPort : ValidationError
deriving DecidableEq, Repr

/-- A validated broker endpoint (host string and port number). -/
structure BrokerEndpoint where
  host : String
  port : ℤ
deriving DecidableEq, Repr

/-- The validation portion of `BrokerIPDialog.save_settings`: strip both
inputs, reject an empty host, then require the port text to parse as an
integer in `(0, 65535]`. -/
def validate (host rawPort : String) : Except ValidationError BrokerEndpoint :=
  let h := pyStrip host
  let p := pyStrip rawPort
  if h = "" then .error .EmptyHost
  else
    match parseInt p with
    | none => .error .InvalidPort
    | some n =>
        if 0 < n ∧ n ≤ 65535 then .ok { host := h, port := n }
        else .error .InvalidPort

/-- The observable content of the settings file when
`BrokerIPDialog.load_settings` runs: the file may be missing, unreadable or
malformed JSON, or a JSON object carrying optional `broker_host` /
`broker_port` keys. -/
inductive SettingsFile where
  | missing : SettingsFile
  | malformed : SettingsFile
  | valid : Option String → Option ℤ → SettingsFile

/-- Model of `BrokerIPDialog.load_settings`: any failure yields the default
`("", 1883)`; an existing object falls back to the default per missing
field via `dict.get`. Totality of this function models "never raises". -/
def load_settings : SettingsFile → String × ℤ
  | .missing => ("", 1883)
  | .malformed => ("", 1883)
  | .valid h p => (h.getD "", p.getD 1883)

deriving instance DecidableEq for Except

/-! ### DCSettingsWindow (`dc_settings.py`) -/

/-- A Python float as produced by `calculate_ratio`: finite, or
`float('inf')`. -/
inductive PFloat where
  | fin : ℚ → PFloat
  | pinf : PFloat
deriving DecidableEq, Repr

/-- The state of the DC-calibration table: per row (0-based channel index)
the text of the read-only "Measured DC" cell (column 1), the value of the
"Actual DC" spinbox (column 2) and the text of the read-only "Calibration
Factor" cell (column 3). -/
structure DCState where
  channel_count : Nat
  measured_text : Nat → String
  actual : Nat → ℚ
  ratio_text : Nat → String

/-- The table as built by `create_table`: measured cells `"0.000"`,
spinboxes `0.0`, factor cells `"1.000"`. -/
def initState (n : Nat) : DCState where
  channel_count := n
  measured_text := fun _ => "0.000"
  actual := fun _ => 0
  ratio_text := fun _ => "1.000"

/-- `QTableWidget.item(row, col)` of the calibration table: items exist in
columns 0, 1 and 3 for valid rows; column 2 holds a cell *widget* (the
spinbox), so `item` returns `None` there. -/
def tableItem (st : DCState) (row col : Nat) : Option String :=
  if row < st.channel_count then
    match col with
    | 0 => some ("Channel " ++ natToString (row + 1))
    | 1 => some (st.measured_text row)
    | 3 => some (st.ratio_text row)
    | _ => none
  else none

/-- The conditional expression computing a channel's calibration factor in
`calculate_ratio`: `actual / measured` when `abs(measured) > 1e-9`, else
`1.0` when `actual == 0`, else `float('inf')`. -/
def ratioFormula (measured actual : ℚ) : PFloat :=
  if mkRat 1 1000000000 < qAbs measured then .fin (qDiv actual measured)
  else if actual = 0 then .fin 1
  else .pinf

/-- The text written into the factor cell when `force_update` holds:
the factor with six decimals if `abs(ratio) < 1000`, else `"N/A"`. -/
def displayText : PFloat → String
  | .fin q => if qAbs q < 1000 then formatFixed 6 q else "N/A"
  | .pinf => "N/A"

/-- Model of `DCSettingsWindow.calculate_ratio(force_update)`. The `for`
loop's body ends in `return ratio`, so only row 0 is ever processed: parse
row 0's measured text (a `ValueError` is caught and yields `None` with no
cell change), compute its factor, update row 0's factor cell only when
`force_update` is true, and return the factor. With zero channels the loop
body never runs and the function returns `None`. -/
def calculate_ratio_fn (st : DCState) (force_update : Bool) :
    DCState × Option PFloat :=
  if st.channel_count = 0 then (st, none)
  else
    match parseFloat (st.measured_text 0) with
    | none => (st, none)
    | some m =>
        let r := ratioFormula m (st.actual 0)
        let st' :=
          if force_update then
            { st with ratio_text := fun j => if j = 0 then displayText r else st.ratio_text j }
          else st
        (st', some r)

/-- Model of `DCSettingsWindow.reset_values`: set every spinbox to `0.0`
and every factor cell to `"1.000"`, then, if an MQTT handler is present,
publish the literal reset command; a publish failure (`some false`) or a
missing handler (`none`) does not touch the already-reset local state. -/
def reset_values (st : DCState) (handler : Option Bool) :
    DCState × Option (String × String) :=
  let st' := { st with
    actual := fun i => if i < st.channel_count then 0 else st.actual i,
    ratio_text := fun i => if i < st.channel_count then "1.000" else st.ratio_text i }
  match handler with
  | none => (st', none)
  | some ok =>
      (st', if ok then some ("dccalibrated/data", "$ResetCalibrationData#") else none)

/-- The factor texts of all channels in row order. -/
def readRatioTexts (st : DCState) : List String :=
  (List.range st.channel_count).map st.ratio_text

/-- The ratio list built by `send_calibration`: per cell, `1.0` for the
`"N/A"` sentinel, otherwise `float(text)`; a `ValueError` anywhere aborts
the whole computation (`none`). -/
def parseRatioList : List String → Option (List ℚ)
  | [] => some []
  | t :: ts =>
      match (if t = "N/A" then some (1 : ℚ) else parseFloat t), parseRatioList ts with
      | some q, some qs => some (q :: qs)
      | _, _ => none

/-- Model of `DCSettingsWindow.send_calibration`: without a handler only a
warning is shown; otherwise read the factor cells, and on success publish
`"$DC_CalibratedData:" + ",".join(map(str, ratios)) + "#"` to
`"dccalibrated/data"`. Local state is never altered. -/
def send_calibration (st : DCState) (handler : Option Bool) :
    DCState × Option (String × String) :=
  match handler with
  | none => (st, none)
  | some ok =>
      match parseRatioList (readRatioTexts st) with
      | none => (st, none)
      | some rs =>
          (st, if ok then
            some ("dccalibrated/data",
              "$DC_CalibratedData:" ++ String.intercalate "," (rs.map pyFloatStr) ++ "#")
          else none)

/-- One iteration of the loop in `update_measured_dc_values` at row `i`
with value `v`: write `f"{float(v):.3f}"` into the measured cell, copy `v`
into the spinbox when its current value is within `1e-9` of zero, then
call `calculate_ratio()` (whose default `force_update=False` leaves the
table unchanged). -/
def updChan (st : DCState) (i : Nat) (v : ℚ) : DCState :=
  let st1 := { st with
    measured_text := fun j => if j = i then formatFixed 3 v else st.measured_text j }
  let st2 :=
    if qAbs (st1.actual i) < mkRat 1 1000000000 then
      { st1 with actual := fun j => if j = i then v else st1.actual j }
    else st1
  (calculate_ratio_fn st2 false).1

/-- The loop of `update_measured_dc_values` over `enumerate(values)`,
starting at row `i`. -/
def updChans (st : DCState) (i : Nat) : List ℚ → DCState
  | [] => st
  | v :: rest => updChans (updChan st i v) (i + 1) rest

/-- The argument of `update_measured_dc_values`: a Python list of floats,
or a value of a different type (rejected by the `isinstance` guard). -/
inductive PySeqArg where
  | pyList : List ℚ → PySeqArg
  | nonList : PySeqArg

/-- Model of `DCSettingsWindow.update_measured_dc_values`: an empty or
non-list argument returns immediately; otherwise the loop runs over
`dc_values[:channel_count]`. -/
def update_measured_dc_values (st : DCState) (arg : PySeqArg) : DCState :=
  match arg with
  | .nonList => st
  | .pyList xs =>
      if xs.isEmpty then st
      else updChans st 0 (xs.take st.channel_count)

/-- Model of `DCSettingsWindow.get_dc_values`: per channel, read the
measured text via `table.item(i, 1)` and the actual text via
`table.item(i, 2)`; an `AttributeError` (item is `None`) skips that
channel's entry. -/
def get_dc_values (st : DCState) : List (Nat × String × String) :=
  (List.range st.channel_count).filterMap (fun i =>
    match tableItem st i 1, tableItem st i 2 with
    | some m, some a => some (i + 1, m, a)
    | _, _ => none)

/-- Model of `DCSettingsWindow.set_measured_dc(channel, value)`: for a
channel number in `1..channel_count` write `f"{value:.3f}"` into that
channel's measured cell; otherwise do nothing. -/
def set_measured_dc (st : DCState) (channel : ℤ) (value : ℚ) : DCState :=
  if 1 ≤ channel ∧ channel ≤ (st.channel_count : ℤ) then
    { st with measured_text := fun j =>
        if j = (channel - 1).toNat then formatFixed 3 value else st.measured_text j }
  else st

/-- A 2-channel table whose rows both measure `1.000` but whose spinboxes
hold `2.0` (row 0) and `3.0` (row 1); the per-row ratio formula gives two
different values. -/
def cexTwoChan : DCState where
  channel_count := 2
  measured_text := fun _ => "1.000"
  actual := fun i => if i = 0 then 2 else 3
  ratio_text := fun _ => "1.000"

/-- A 2-channel table whose row 1 has measured `0.000` and actual `5.0`
(ratio `+inf`, so `abs(ratio) >= 1000`), with all factor cells still at
their initial `"1.000"`. -/
def cexRowOne : DCState where
  channel_count := 2
  measured_text := fun _ => "0.000"
  actual := fun i => if i = 0 then 0 else 5
  ratio_text := fun _ => "1.000"

/-! ### Helper lemmas -/

theorem qDiv_eq (a b : ℚ) : qDiv a b = a / b := by
  unfold qDiv
  have key : ∀ n d : ℤ,
      mkRat (if d < 0 then -n else n) d.natAbs = Rat.divInt n d := by
    intro n d
    rcases lt_or_le d 0 with h | h
    · have hd : ((d.natAbs : ℤ)) = -d := by omega
      rw [if_pos h, Rat.mkRat_eq_divInt, hd, Rat.neg_divInt_neg]
    · have hd : ((d.natAbs : ℤ)) = d := by omega
      rw [if_neg (not_lt.mpr h), Rat.mkRat_eq_divInt, hd]
  rw [key, ← Rat.div_def']

theorem qAbs_eq (q : ℚ) : qAbs q = |q| := by
  unfold qAbs
  rw [Rat.mkRat_eq_divInt, ← Rat.abs_def]

theorem qNeg_eq (q : ℚ) : qNeg q = -q := by
  unfold qNeg
  rw [Rat.mkRat_eq_div]
  push_cast
  rw [neg_div, Rat.num_div_den]

theorem calculate_ratio_fst_false (st : DCState) :
    (calculate_ratio_fn st false).1 = st := by
  unfold calculate_ratio_fn
  split
  · rfl
  · cases parseFloat (st.measured_text 0) <;> simp

theorem updChan_channel_count (st : DCState) (i : Nat) (v : ℚ) :
    (updChan st i v).channel_count = st.channel_count := by
  unfold updChan
  rw [calculate_ratio_fst_false]
  split <;> rfl

theorem updChan_measured (st : DCState) (i : Nat) (v : ℚ) (j : Nat) :
    (updChan st i v).measured_text j =
      if j = i then formatFixed 3 v else st.measured_text j := by
  unfold updChan
  rw [calculate_ratio_fst_false]
  split <;> rfl

theorem updChan_actual (st : DCState) (i : Nat) (v : ℚ) (j : Nat) :
    (updChan st i v).actual j =
      if j = i ∧ qAbs (st.actual i) < mkRat 1 1000000000 then v
      else st.actual j := by
  unfold updChan
  rw [calculate_ratio_fst_false]
  by_cases hc : qAbs (st.actual i) < mkRat 1 1000000000 <;>
    by_cases hj : j = i <;>
    simp [hc, hj]

theorem updChan_ratio_text (st : DCState) (i : Nat) (v : ℚ) (j : Nat) :
    (updChan st i v).ratio_text j = st.ratio_text j := by
  unfold updChan
  rw [calculate_ratio_fst_false]
  split <;> rfl

theorem updChans_ratio_text (xs : List ℚ) :
    ∀ (st : DCState) (i j : Nat), (updChans st i xs).ratio_text j = st.ratio_text j := by
  induction xs with
  | nil => intro st i j; rfl
  | cons v rest ih =>
      intro st i j
      show (updChans (updChan st i v) (i + 1) rest).ratio_text j = st.ratio_text j
      rw [ih, updChan_ratio_text]

theorem updChans_measured (xs : List ℚ) :
    ∀ (st : DCState) (i j : Nat),
      (updChans st i xs).measured_text j =
        if i ≤ j ∧ j < i + xs.length then formatFixed 3 (xs.getD (j - i) 0)
        else st.measured_text j := by
  induction xs with
  | nil =>
      intro st i j
      simp only [List.length_nil]
      rw [if_neg (by omega)]
      rfl
  | cons v rest ih =>
      intro st i j
      show (updChans (updChan st i v) (i + 1) rest).measured_text j = _
      rw [ih, updChan_measured]
      simp only [List.length_cons]
      by_cases hj : j = i
      · subst hj
        rw [if_neg (by omega), if_pos rfl, if_pos (by omega), Nat.sub_self,
          List.getD_cons_zero]
      · by_cases hr : i + 1 ≤ j ∧ j < i + 1 + rest.length
        · rw [if_pos hr, if_pos (by omega)]
          have hidx : j - i = (j - (i + 1)) + 1 := by omega
          rw [hidx, List.getD_cons_succ]
        · rw [if_neg hr, if_neg hj, if_neg (by omega)]

theorem updChans_actual (xs : List ℚ) :
    ∀ (st : DCState) (i j : Nat),
      (updChans st i xs).actual j =
        if i ≤ j ∧ j < i + xs.length ∧ qAbs (st.actual j) < mkRat 1 1000000000 then
          xs.getD (j - i) 0
        else st.actual j := by
  induction xs with
  | nil =>
      intro st i j
      simp only [List.length_nil]
      rw [if_neg (by omega)]
      rfl
  | cons v rest ih =>
      intro st i j
      show (updChans (updChan st i v) (i + 1) rest).actual j = _
      rw [ih]
      simp only [List.length_cons]
      by_cases hj : j = i
      · subst hj
        rw [if_neg (by omega), updChan_actual]
        by_cases hc : qAbs (st.actual j) < mkRat 1 1000000000
        · rw [if_pos ⟨rfl, hc⟩, if_pos ⟨by omega, by omega, hc⟩, Nat.sub_self,
            List.getD_cons_zero]
        · rw [if_neg (by tauto), if_neg (by tauto)]
      · have h1 : (updChan st i v).actual j = st.actual j := by
          rw [updChan_actual, if_neg (by tauto)]
        rw [h1]
        by_cases hr : i + 1 ≤ j ∧ j < i + 1 + rest.length ∧
            qAbs (st.actual j) < mkRat 1 1000000000
        · rw [if_pos hr, if_pos ⟨by omega, by omega, hr.2.2⟩]
          have hidx : j - i = (j - (i + 1)) + 1 := by omega
          rw [hidx, List.getD_cons_succ]
        · rw [if_neg hr, if_neg (by
            rintro ⟨ha, hb, hp⟩
            exact hr ⟨by omega, by omega, hp⟩)]

theorem getD_take (xs : List ℚ) :
    ∀ (n i : Nat), i < n → (xs.take n).getD i 0 = xs.getD i 0 := by
  induction xs with
  | nil => intro n i _; simp
  | cons x rest ih =>
      intro n i hin
      match n, i with
      | n + 1, 0 => simp
      | n + 1, i + 1 =>
          simp only [List.take_succ_cons, List.getD_cons_succ]
          exact ih n i (by omega)

theorem parseRatioList_all_parse (ts : List String)
    (h : ∀ t ∈ ts, t = "N/A" ∨ (parseFloat t).isSome) :
    parseRatioList ts =
      some (ts.map fun t => if t = "N/A" then 1 else (parseFloat t).getD 0) := by
  induction ts with
  | nil => rfl
  | cons t rest ih =>
      have ht := h t (List.mem_cons_self t rest)
      have hrest := ih fun u hu => h u (List.mem_cons_of_mem t hu)
      unfold parseRatioList
      rw [hrest]
      by_cases hna : t = "N/A"
      · simp [hna]
      · rcases ht with ht | hsome
        · exact absurd ht hna
        · cases hp : parseFloat t with
          | none => rw [hp] at hsome; simp at hsome
          | some q => simp [hna, hp]

/-! ### Claim theorems -/

/-- C5: `validate(host, rawPort)` fails with `EmptyHost` exactly when the
host is blank after stripping whitespace; otherwise it fails with
`InvalidPort` exactly when the stripped port text does not parse as an
integer or parses outside `[1, 65535]`; otherwise it succeeds with the
endpoint of the stripped host and parsed port. The three concrete examples
of the claim are included. (When both inputs are bad, the host check runs
first, as in `save_settings`.) -/
theorem validate_spec (host rawPort : String) :
    (validate host rawPort = .error .EmptyHost ↔ pyStrip host = "")
  ∧ (validate host rawPort = .error .InvalidPort ↔
      (pyStrip host ≠ "" ∧
        (parseInt (pyStrip rawPort) = none ∨
          ∃ n, parseInt (pyStrip rawPort) = some n ∧ ¬(1 ≤ n ∧ n ≤ 65535))))
  ∧ (∀ e, validate host rawPort = .ok e ↔
      (pyStrip host ≠ "" ∧ e.host = pyStrip host ∧
        parseInt (pyStrip rawPort) = some e.port ∧ 1 ≤ e.port ∧ e.port ≤ 65535))
  ∧ validate "" "1883" = .error .EmptyHost
  ∧ validate "10.0.0.1" "70000" = .error .InvalidPort
  ∧ validate "10.0.0.1" "1883" = .ok { host := "10.0.0.1", port := 1883 } := by
  refine ⟨?_, ?_, ?_, by decide, by decide, by decide⟩
  · unfold validate
    by_cases hh : pyStrip host = ""
    · simp [hh]
    · simp only [if_neg hh]
      cases hp : parseInt (pyStrip rawPort) with
      | none => simp [hh]
      | some n =>
          dsimp only
          split_ifs with hn <;> simp [hh]
  · unfold validate
    by_cases hh : pyStrip host = ""
    · simp [hh]
    · simp only [if_neg hh]
      cases hp : parseInt (pyStrip rawPort) with
      | none => simp [hh]
      | some n =>
          dsimp only
          split_ifs with hn
          · simp only [ne_eq, hh, not_false_eq_true, true_and]
            constructor
            · intro hc; exact absurd hc (by simp)
            · rintro (hnone | ⟨n', hn', hrange⟩)
              · exact absurd hnone (by simp)
              · injection hn' with h3
                subst h3
                exact absurd ⟨by omega, hn.2⟩ hrange
          · constructor
            · intro _
              exact ⟨hh, Or.inr ⟨n, rfl, fun hr => hn ⟨by omega, hr.2⟩⟩⟩
            · intro _; rfl
  · intro e
    unfold validate
    by_cases hh : pyStrip host = ""
    · simp [hh]
    · simp only [if_neg hh]
      cases hp : parseInt (pyStrip rawPort) with
      | none => simp [hh]
      | some n =>
          dsimp only
          split_ifs with hn
          · constructor
            · intro hc
              simp only [Except.ok.injEq] at hc
              subst hc
              exact ⟨hh, rfl, rfl, show (1 : ℤ) ≤ n by omega, hn.2⟩
            · rintro ⟨-, he, hport, h1, h2⟩
              cases e with
              | mk eh ep =>
                  dsimp only at he hport
                  injection hport with h3
                  subst he
                  subst h3
                  rfl
          · constructor
            · intro hc; exact absurd hc (by simp)
            · rintro ⟨-, -, hport, h1, h2⟩
              injection hport with h3
              exact absurd ⟨by omega, by omega⟩ hn

/-- C6: `load_settings` never raises (it is a total function of the file
state) and returns the per-field defaulted pair: `("", 1883)` for a
missing or malformed file, and `dict.get` fallbacks per missing key. -/
theorem load_settings_spec (h : Option String) (p : Option ℤ) (s : String) (n : ℤ) :
    load_settings .missing = ("", 1883)
  ∧ load_settings .malformed = ("", 1883)
  ∧ load_settings (.valid h p) = (h.getD "", p.getD 1883)
  ∧ load_settings (.valid none p) = ("", p.getD 1883)
  ∧ load_settings (.valid h none) = (h.getD "", 1883)
  ∧ load_settings (.valid (some s) (some n)) = (s, n) :=
  ⟨rfl, rfl, rfl, rfl, rfl, rfl⟩

/-- C8: `get_dc_values` returns the empty mapping on every state: column 2
holds a cell widget, so `table.item(i, 2)` is `None` for every row, the
`.text()` call raises `AttributeError`, and every channel's entry is
skipped. The claim (an entry for every channel in `1..channel_count`)
fails for every `channel_count > 0`. -/
theorem get_dc_values_empty (st : DCState) : get_dc_values st = [] := by
  unfold get_dc_values
  rw [List.filterMap_eq_nil_iff]
  intro i _
  have h2 : tableItem st i 2 = none := by
    unfold tableItem
    split <;> rfl
  rw [h2]
  cases tableItem st i 1 <;> rfl

/-- C10: `update_measured_dc_values` with an empty list or a non-list
argument returns without modifying the state (and, being a total
function, without raising). -/
theorem update_measured_no_op (st : DCState) :
    update_measured_dc_values st .nonList = st
  ∧ update_measured_dc_values st (.pyList []) = st :=
  ⟨rfl, rfl⟩

/-- C1 (counterexample): on a 2-channel table whose rows would have
ratios `2.0` and `3.0`, `calculate_ratio` returns `2.0` — the value of
channel 0 only — so it does not return the conditional ratio "for every
channel": the value the formula assigns to channel 1 is `3.0`, which is
not what the call returns. -/
theorem calculate_ratio_claim_cex :
    (calculate_ratio_fn cexTwoChan false).2 = some (.fin 2)
  ∧ ratioFormula ((parseFloat (cexTwoChan.measured_text 1)).getD 0)
      (cexTwoChan.actual 1) = .fin 3
  ∧ (calculate_ratio_fn cexTwoChan false).2 ≠
      some (ratioFormula ((parseFloat (cexTwoChan.measured_text 1)).getD 0)
        (cexTwoChan.actual 1)) := by
  decide

/-- C1 (amended): `calculate_ratio` computes the conditional ratio only
for the first channel (row 0) and returns it — `a/m` when
`abs(m) > 1e-9`, `1.0` when `abs(m) <= 1e-9` and `a == 0`, `+infinity`
when `abs(m) <= 1e-9` and `a != 0`, where `m`/`a` are row 0's measured
and actual values; rows past the first are never processed (the loop body
ends in `return`). -/
theorem calculate_ratio_first_channel (st : DCState) (m : ℚ) (f : Bool)
    (h0 : 0 < st.channel_count) (hm : parseFloat (st.measured_text 0) = some m) :
    (mkRat 1 1000000000 < |m| →
        (calculate_ratio_fn st f).2 = some (.fin (st.actual 0 / m)))
  ∧ (|m| ≤ mkRat 1 1000000000 → st.actual 0 = 0 →
        (calculate_ratio_fn st f).2 = some (.fin 1))
  ∧ (|m| ≤ mkRat 1 1000000000 → st.actual 0 ≠ 0 →
        (calculate_ratio_fn st f).2 = some .pinf) := by
  have hsnd : (calculate_ratio_fn st f).2 = some (ratioFormula m (st.actual 0)) := by
    unfold calculate_ratio_fn
    rw [if_neg (by omega), hm]
  rw [hsnd]
  unfold ratioFormula
  rw [qAbs_eq, qDiv_eq]
  refine ⟨?_, ?_, ?_⟩
  · intro h
    rw [if_pos h]
  · intro h ha
    rw [if_neg (not_lt.mpr h), if_pos ha]
  · intro h ha
    rw [if_neg (not_lt.mpr h), if_neg ha]

/-- C1 (witness): the amended theorem applied to a fresh 1-channel table
(measured text `"0.000"`, so `m = 0` and the returned ratio is `1.0`). -/
theorem calculate_ratio_first_channel_witness :
    (0 < (initState 1).channel_count
      ∧ parseFloat ((initState 1).measured_text 0) = some 0)
  ∧ ((mkRat 1 1000000000 < |(0 : ℚ)| →
        (calculate_ratio_fn (initState 1) false).2 =
          some (.fin ((initState 1).actual 0 / 0)))
    ∧ (|(0 : ℚ)| ≤ mkRat 1 1000000000 → (initState 1).actual 0 = 0 →
        (calculate_ratio_fn (initState 1) false).2 = some (.fin 1))
    ∧ (|(0 : ℚ)| ≤ mkRat 1 1000000000 → (initState 1).actual 0 ≠ 0 →
        (calculate_ratio_fn (initState 1) false).2 = some .pinf)) :=
  ⟨⟨by decide, by decide⟩,
    calculate_ratio_first_channel (initState 1) 0 false (by decide) (by decide)⟩

/-- C3 (counterexample): on a 2-channel table whose row 1 computes ratio
`+infinity` (so `abs(ratio) >= 1000`), `calculate_ratio(force_update=True)`
leaves row 1's factor cell at its previous numeric text `"1.000"` instead
of the `"N/A"` sentinel, because the loop returns after row 0. -/
theorem force_update_claim_cex :
    ratioFormula ((parseFloat (cexRowOne.measured_text 1)).getD 0)
      (cexRowOne.actual 1) = .pinf
  ∧ ((calculate_ratio_fn cexRowOne true).1).ratio_text 1 = "1.000"
  ∧ ("1.000" : String) ≠ "N/A" := by
  decide

/-- C3 (amended): when `calculate_ratio` is called with
`force_update=True`, only row 0's factor cell is updated: it shows `"N/A"`
when row 0's computed ratio has `abs(ratio) >= 1000` (including
`+infinity`) and the six-decimal rendering when `abs(ratio) < 1000`;
every other row's factor cell — and all measured/actual state — is left
unchanged. -/
theorem calculate_ratio_display_first (st : DCState) (m : ℚ)
    (h0 : 0 < st.channel_count) (hm : parseFloat (st.measured_text 0) = some m) :
    (∀ q, ratioFormula m (st.actual 0) = .fin q → 1000 ≤ |q| →
        ((calculate_ratio_fn st true).1).ratio_text 0 = "N/A")
  ∧ (ratioFormula m (st.actual 0) = .pinf →
        ((calculate_ratio_fn st true).1).ratio_text 0 = "N/A")
  ∧ (∀ q, ratioFormula m (st.actual 0) = .fin q → |q| < 1000 →
        ((calculate_ratio_fn st true).1).ratio_text 0 = formatFixed 6 q)
  ∧ (∀ j, j ≠ 0 → ((calculate_ratio_fn st true).1).ratio_text j = st.ratio_text j)
  ∧ (∀ j, ((calculate_ratio_fn st true).1).measured_text j = st.measured_text j)
  ∧ (∀ j, ((calculate_ratio_fn st true).1).actual j = st.actual j) := by
  have hst : (calculate_ratio_fn st true).1 =
      { st with ratio_text := fun j =>
          if j = 0 then displayText (ratioFormula m (st.actual 0))
          else st.ratio_text j } := by
    unfold calculate_ratio_fn
    rw [if_neg (by omega), hm]
    rfl
  have hzero : ((calculate_ratio_fn st true).1).ratio_text 0 =
      displayText (ratioFormula m (st.actual 0)) := by
    rw [hst]
    dsimp only
    rw [if_pos rfl]
  refine ⟨?_, ?_, ?_, ?_, ?_, ?_⟩
  · intro q hq hge
    rw [hzero, hq]
    simp only [displayText]
    rw [if_neg (by rw [qAbs_eq]; exact not_lt.mpr hge)]
  · intro hq
    rw [hzero, hq]
    rfl
  · intro q hq hlt
    rw [hzero, hq]
    simp only [displayText]
    rw [if_pos (by rw [qAbs_eq]; exact hlt)]
  · intro j hj
    rw [hst]
    dsimp only
    rw [if_neg hj]
  · intro j
    rw [hst]
  · intro j
    rw [hst]

/-- C3 (witness): the amended theorem applied to a fresh 1-channel table
(`m = 0`, `a = 0`, ratio `1.0`, displayed as `"1.000000"`). -/
theorem calculate_ratio_display_first_witness :
    (0 < (initState 1).channel_count
      ∧ parseFloat ((initState 1).measured_text 0) = some 0)
  ∧ ((∀ q, ratioFormula 0 ((initState 1).actual 0) = .fin q → 1000 ≤ |q| →
        ((calculate_ratio_fn (initState 1) true).1).ratio_text 0 = "N/A")
    ∧ (ratioFormula 0 ((initState 1).actual 0) = .pinf →
        ((calculate_ratio_fn (initState 1) true).1).ratio_text 0 = "N/A")
    ∧ (∀ q, ratioFormula 0 ((initState 1).actual 0) = .fin q → |q| < 1000 →
        ((calculate_ratio_fn (initState 1) true).1).ratio_text 0 = formatFixed 6 q)
    ∧ (∀ j, j ≠ 0 →
        ((calculate_ratio_fn (initState 1) true).1).ratio_text j =
          (initState 1).ratio_text j)
    ∧ (∀ j, ((calculate_ratio_fn (initState 1) true).1).measured_text j =
        (initState 1).measured_text j)
    ∧ (∀ j, ((calculate_ratio_fn (initState 1) true).1).actual j =
        (initState 1).actual j)) :=
  ⟨⟨by decide, by decide⟩,
    calculate_ratio_display_first (initState 1) 0 (by decide) (by decide)⟩

/-- C4: `reset_values` sets every channel's actual value to `0.0` and
every factor cell to `"1.000"`; the resulting local state is the same
whatever the handler/publish outcome is (no rollback), measured cells are
untouched, and with a working handler the literal command
`"$ResetCalibrationData#"` is published to `"dccalibrated/data"` (a
failing publish publishes nothing but still leaves the reset state). -/
theorem reset_values_spec (st : DCState) (handler : Option Bool) :
    (∀ i, i < st.channel_count →
        (reset_values st handler).1.actual i = 0
      ∧ (reset_values st handler).1.ratio_text i = "1.000")
  ∧ (∀ i, (reset_values st handler).1.measured_text i = st.measured_text i)
  ∧ (reset_values st handler).1 = (reset_values st (some false)).1
  ∧ (reset_values st (some true)).2 = some ("dccalibrated/data", "$ResetCalibrationData#")
  ∧ (reset_values st (some false)).2 = none := by
  have hfst : ∀ h, (reset_values st h).1 =
      { st with
        actual := fun i => if i < st.channel_count then 0 else st.actual i,
        ratio_text := fun i => if i < st.channel_count then "1.000" else st.ratio_text i } := by
    intro h
    cases h <;> rfl
  refine ⟨?_, ?_, ?_, rfl, rfl⟩
  · intro i hi
    rw [hfst]
    exact ⟨by dsimp only; rw [if_pos hi], by dsimp only; rw [if_pos hi]⟩
  · intro i
    rw [hfst]
  · rw [hfst handler, hfst (some false)]

/-- C4 (witness): the reset theorem applied to a fresh 2-channel table
with a failing publisher. -/
theorem reset_values_spec_witness :
    (∀ i, i < (initState 2).channel_count →
        (reset_values (initState 2) (some false)).1.actual i = 0
      ∧ (reset_values (initState 2) (some false)).1.ratio_text i = "1.000")
  ∧ (∀ i, (reset_values (initState 2) (some false)).1.measured_text i =
      (initState 2).measured_text i)
  ∧ (reset_values (initState 2) (some false)).1 =
      (reset_values (initState 2) (some false)).1
  ∧ (reset_values (initState 2) (some true)).2 =
      some ("dccalibrated/data", "$ResetCalibrationData#")
  ∧ (reset_values (initState 2) (some false)).2 = none :=
  reset_values_spec (initState 2) (some false)

/-- C2 (counterexample): on a fresh 4-channel table every factor cell
reads `"1.000"`, so the ratio list is `[1.0, 1.0, 1.0, 1.0]`; Python's
`str` renders each as `"1.0"`, and `send_calibration` publishes
`"$DC_CalibratedData:1.0,1.0,1.0,1.0#"` — not the claimed
`"$DC_CalibratedData:1,1,1,1#"`. -/
theorem send_calibration_claim_cex :
    parseRatioList (readRatioTexts (initState 4)) = some [1, 1, 1, 1]
  ∧ (send_calibration (initState 4) (some true)).2 =
      some ("dccalibrated/data", "$DC_CalibratedData:1.0,1.0,1.0,1.0#")
  ∧ "$DC_CalibratedData:1.0,1.0,1.0,1.0#" ≠ "$DC_CalibratedData:1,1,1,1#" := by
  decide

/-- C2 (amended): when every factor cell either shows the `"N/A"`
sentinel (read as `1.0`) or parses as a float, `send_calibration` with a
working handler publishes to `"dccalibrated/data"` the payload
`"$DC_CalibratedData:" + ",".join(map(str, ratios)) + "#"` built from the
per-channel ratios in row order, leaving local state unchanged; on a
4-channel set whose ratios are `[1,1,1,1]` the payload is exactly
`"$DC_CalibratedData:1.0,1.0,1.0,1.0#"` (Python `str` of the float `1.0`). -/
theorem send_calibration_payload (st : DCState)
    (h : ∀ t ∈ readRatioTexts st, t = "N/A" ∨ (parseFloat t).isSome) :
    (send_calibration st (some true)).1 = st
  ∧ (send_calibration st (some true)).2 =
      some ("dccalibrated/data",
        "$DC_CalibratedData:" ++
          String.intercalate ","
            ((((readRatioTexts st).map fun t =>
              if t = "N/A" then (1 : ℚ) else (parseFloat t).getD 0).map pyFloatStr)) ++ "#")
  ∧ (((readRatioTexts st).map fun t =>
        if t = "N/A" then (1 : ℚ) else (parseFloat t).getD 0) = [1, 1, 1, 1] →
      (send_calibration st (some true)).2 =
        some ("dccalibrated/data", "$DC_CalibratedData:1.0,1.0,1.0,1.0#")) := by
  have hparse := parseRatioList_all_parse (readRatioTexts st) h
  have h1 : send_calibration st (some true) =
      (st, some ("dccalibrated/data",
        "$DC_CalibratedData:" ++
          String.intercalate ","
            ((((readRatioTexts st).map fun t =>
              if t = "N/A" then (1 : ℚ) else (parseFloat t).getD 0).map pyFloatStr)) ++ "#")) := by
    unfold send_calibration
    rw [hparse]
    rfl
  refine ⟨by rw [h1], by rw [h1], ?_⟩
  intro hval
  rw [h1, hval]
  show some ("dccalibrated/data",
      "$DC_CalibratedData:" ++
        String.intercalate "," (List.map pyFloatStr [(1 : ℚ), 1, 1, 1]) ++ "#") =
    some ("dccalibrated/data", "$DC_CalibratedData:1.0,1.0,1.0,1.0#")
  decide

/-- C2 (witness): the amended theorem applied to a fresh 4-channel table,
whose factor cells all read `"1.000"`. -/
theorem send_calibration_payload_witness :
    (∀ t ∈ readRatioTexts (initState 4), t = "N/A" ∨ (parseFloat t).isSome)
  ∧ ((send_calibration (initState 4) (some true)).1 = initState 4
    ∧ (send_calibration (initState 4) (some true)).2 =
        some ("dccalibrated/data",
          "$DC_CalibratedData:" ++
            String.intercalate ","
              ((((readRatioTexts (initState 4)).map fun t =>
                if t = "N/A" then (1 : ℚ) else (parseFloat t).getD 0).map pyFloatStr)) ++ "#")
    ∧ (((readRatioTexts (initState 4)).map fun t =>
          if t = "N/A" then (1 : ℚ) else (parseFloat t).getD 0) = [1, 1, 1, 1] →
        (send_calibration (initState 4) (some true)).2 =
          some ("dccalibrated/data", "$DC_CalibratedData:1.0,1.0,1.0,1.0#"))) :=
  ⟨by decide, send_calibration_payload (initState 4) (by decide)⟩

/-- C7: `update_measured_dc_values` on a nonempty list updates rows
`0..min(len(values), channel_count)-1` in order: each updated row's
measured cell shows the value with 3 decimals, and its actual value is
auto-initialized to the incoming value exactly when the previous actual
was within `1e-9` of zero (otherwise kept); rows at or past
`min(len(values), channel_count)` keep their measured and actual state,
and no factor cell changes (the embedded `calculate_ratio()` call uses
`force_update=False`). -/
theorem update_measured_batch_spec (st : DCState) (xs : List ℚ) (hne : xs ≠ []) :
    (∀ i, i < min xs.length st.channel_count →
        (update_measured_dc_values st (.pyList xs)).measured_text i =
          formatFixed 3 (xs.getD i 0)
      ∧ (|st.actual i| < mkRat 1 1000000000 →
          (update_measured_dc_values st (.pyList xs)).actual i = xs.getD i 0)
      ∧ (¬ |st.actual i| < mkRat 1 1000000000 →
          (update_measured_dc_values st (.pyList xs)).actual i = st.actual i))
  ∧ (∀ i, min xs.length st.channel_count ≤ i →
        (update_measured_dc_values st (.pyList xs)).measured_text i = st.measured_text i
      ∧ (update_measured_dc_values st (.pyList xs)).actual i = st.actual i)
  ∧ (∀ i, (update_measured_dc_values st (.pyList xs)).ratio_text i = st.ratio_text i) := by
  have hrun : update_measured_dc_values st (.pyList xs) =
      updChans st 0 (xs.take st.channel_count) := by
    unfold update_measured_dc_values
    dsimp only
    rw [if_neg (by simpa using hne)]
  refine ⟨?_, ?_, ?_⟩
  · intro i hi
    refine ⟨?_, ?_, ?_⟩
    · rw [hrun, updChans_measured,
        if_pos ⟨Nat.zero_le i, by simp only [List.length_take]; omega⟩,
        Nat.sub_zero, getD_take xs st.channel_count i (by omega)]
    · intro hlt
      rw [hrun, updChans_actual,
        if_pos ⟨Nat.zero_le i, by simp only [List.length_take]; omega,
          by rw [qAbs_eq]; exact hlt⟩,
        Nat.sub_zero, getD_take xs st.channel_count i (by omega)]
    · intro hnlt
      rw [hrun, updChans_actual, if_neg]
      rintro ⟨-, -, hc⟩
      rw [qAbs_eq] at hc
      exact hnlt hc
  · intro i hge
    constructor
    · rw [hrun, updChans_measured, if_neg]
      rintro ⟨-, hb⟩
      simp only [List.length_take] at hb
      omega
    · rw [hrun, updChans_actual, if_neg]
      rintro ⟨-, hb, -⟩
      simp only [List.length_take] at hb
      omega
  · intro i
    rw [hrun, updChans_ratio_text]

/-- C7 (witness): the batch theorem applied to a fresh 4-channel table
and the claim's example `[2.5, 3.0]`. -/
theorem update_measured_batch_spec_witness :
    ([mkRat 5 2, 3] ≠ ([] : List ℚ))
  ∧ ((∀ i, i < min ([mkRat 5 2, 3] : List ℚ).length (initState 4).channel_count →
        (update_measured_dc_values (initState 4) (.pyList [mkRat 5 2, 3])).measured_text i =
          formatFixed 3 (([mkRat 5 2, 3] : List ℚ).getD i 0)
      ∧ (|(initState 4).actual i| < mkRat 1 1000000000 →
          (update_measured_dc_values (initState 4) (.pyList [mkRat 5 2, 3])).actual i =
            ([mkRat 5 2, 3] : List ℚ).getD i 0)
      ∧ (¬ |(initState 4).actual i| < mkRat 1 1000000000 →
          (update_measured_dc_values (initState 4) (.pyList [mkRat 5 2, 3])).actual i =
            (initState 4).actual i))
    ∧ (∀ i, min ([mkRat 5 2, 3] : List ℚ).length (initState 4).channel_count ≤ i →
        (update_measured_dc_values (initState 4) (.pyList [mkRat 5 2, 3])).measured_text i =
          (initState 4).measured_text i
      ∧ (update_measured_dc_values (initState 4) (.pyList [mkRat 5 2, 3])).actual i =
          (initState 4).actual i)
    ∧ (∀ i, (update_measured_dc_values (initState 4) (.pyList [mkRat 5 2, 3])).ratio_text i =
        (initState 4).ratio_text i)) :=
  ⟨by decide, update_measured_batch_spec (initState 4) [mkRat 5 2, 3] (by decide)⟩

/-- C9: `set_measured_dc(channel, value)` with `channel` in
`1..channel_count` writes `value` formatted with 3 decimals into that
channel's measured cell and changes nothing else; for every out-of-range
`channel` the whole state is returned unchanged. -/
theorem set_measured_dc_spec (st : DCState) (c : ℤ) (v : ℚ) :
    (1 ≤ c → c ≤ (st.channel_count : ℤ) →
        ((set_measured_dc st c v).measured_text (c - 1).toNat = formatFixed 3 v
      ∧ (∀ j, j ≠ (c - 1).toNat →
          (set_measured_dc st c v).measured_text j = st.measured_text j)
      ∧ (∀ j, (set_measured_dc st c v).actual j = st.actual j)
      ∧ (∀ j, (set_measured_dc st c v).ratio_text j = st.ratio_text j)))
  ∧ (¬(1 ≤ c ∧ c ≤ (st.channel_count : ℤ)) → set_measured_dc st c v = st) := by
  constructor
  · intro h1 h2
    have hin : set_measured_dc st c v =
        { st with measured_text := fun j =>
            if j = (c - 1).toNat then formatFixed 3 v else st.measured_text j } := by
      unfold set_measured_dc
      rw [if_pos ⟨h1, h2⟩]
    rw [hin]
    exact ⟨by dsimp only; rw [if_pos rfl],
      fun j hj => by dsimp only; rw [if_neg hj],
      fun j => rfl, fun j => rfl⟩
  · intro h
    unfold set_measured_dc
    rw [if_neg h]

/-- C9 (witness): channel 2 of a fresh 4-channel table receives `3.5`
(cell text `"3.500"`); channel 9 is out of range and the state is
unchanged. -/
theorem set_measured_dc_spec_witness :
    (set_measured_dc (initState 4) 2 (mkRat 7 2)).measured_text 1 = "3.500"
  ∧ set_measured_dc (initState 4) 9 (mkRat 7 2) = initState 4 :=
  ⟨((set_measured_dc_spec (initState 4) 2 (mkRat 7 2)).1 (by decide) (by decide)).1,
    (set_measured_dc_spec (initState 4) 9 (mkRat 7 2)).2 (by decide)⟩

/-- C5 (witness): the three concrete examples of the claim, extracted by
applying the validation theorem at those inputs. -/
theorem validate_spec_witness :
    validate "" "1883" = .error .EmptyHost
  ∧ validate "10.0.0.1" "70000" = .error .InvalidPort
  ∧ validate "10.0.0.1" "1883" = .ok { host := "10.0.0.1", port := 1883 } :=
  ⟨(validate_spec "" "1883").2.2.2.1,
    (validate_spec "10.0.0.1" "70000").2.2.2.2.1,
    (validate_spec "10.0.0.1" "1883").2.2.2.2.2⟩
